import Mathlib

/-!
Verification of the plaindocsync core: mode arbitration, debounced
persistence, awareness roster, presence tracking and session lifecycle,
shallowly embedded from the TypeScript sources
(src/components/DocumentRoom.tsx, src/components/Editor.tsx,
src/hooks/useDocumentPresence.ts).
-/

namespace PlainDocSync

/-! ## Mode arbitration (DocumentRoom.tsx) -/

/-- Session mode: Local (single editor) or Collaborative (shared document). -/
inductive Mode where
  | Local
  | Collaborative
deriving DecidableEq, Repr

/-- Inputs in scope at the decision point in `DocumentRoom`: the document's
visibility flag (`docPublic`, fetched from the store) and the presence data
returned by `useDocumentPresence` (`onlineUsers`, `isCollaborating`). -/
structure RoomInputs where
  docPublic : Bool
  onlineUsers : Nat
  isCollaborating : Bool
deriving DecidableEq, Repr

/-- Embeds `const shouldEnterRoom = docPublic;` (DocumentRoom.tsx line 33):
the room-entry condition reads only the visibility flag. -/
def shouldEnterRoom (inp : RoomInputs) : Bool :=
  inp.docPublic

/-- Embeds the branch in `DocumentRoom`: when `shouldEnterRoom` holds the
`Editor` is mounted with `isCollab = true` (a collaborative session),
otherwise with `isCollab = false` (local mode). -/
def ModeArbiter.decide (inp : RoomInputs) : Mode :=
  if shouldEnterRoom inp then Mode.Collaborative else Mode.Local

/-! ## Display color hash (Editor.tsx, stringToColor) -/

/-- JavaScript ToInt32: reduce an integer to the signed 32-bit range, as the
`<<` and `>>` operators do to their operands. -/
def toInt32 (x : Int) : Int :=
  let r := x.emod 4294967296
  if r < 2147483648 then r else r - 4294967296

/-- One iteration of the hash loop in `stringToColor`:
`hash = str.charCodeAt(i) + ((hash << 5) - hash)`. The shift coerces `hash`
to int32 and wraps its 32-fold to int32 again; the subtraction and addition
are exact (JS numbers are exact integers in the ranges reached here). -/
def hashStep (h : Int) (c : Nat) : Int :=
  (c : Int) + (toInt32 (toInt32 h * 32) - h)

/-- The hash of a display name, folded over its UTF-16 char codes starting
from 0, as in `stringToColor`. -/
def hashString (codes : List Nat) : Int :=
  codes.foldl hashStep 0

/-- One color channel of `stringToColor`:
`const value = (hash >> (i * 8)) & 0xFF;` followed by
`Math.max(value, 50)`. Arithmetic right shift of an int32 is floor division
by a power of two, and `& 0xFF` of a two's-complement value is its
nonnegative residue mod 256. -/
def channel (h : Int) (i : Nat) : Int :=
  max (((toInt32 h).fdiv (2 ^ (i * 8))).emod 256) 50

/-- Embeds `stringToColor` (Editor.tsx lines 14-27): hash the char codes of
the name and extract three brightness-clamped channels (i = 0, 1, 2). -/
def stringToColor (codes : List Nat) : Int × Int × Int :=
  let h := hashString codes
  (channel h 0, channel h 1, channel h 2)

/-! ## Debounced content persistence (Editor.tsx, saveContent)

The debounce timer is a single mutable slot: each content-change event
clears any pending timeout and schedules a new write of its own snapshot
2000 ms later. We model an event trace as a time-ordered list of
(timestamp, snapshot) pairs and compute the durable content writes the
coordinator issues, each tagged with its firing time. -/

/-- The fixed quiet period of the debounce, `2000` in
`setTimeout(..., 2000)`. -/
def QUIET_MS : Nat := 2000

/-- Runs a trace of content-change events against the single-slot pending
write. A pending write `(d, s)` fires (is appended to the output) when the
next event arrives at or after its deadline `d`; otherwise the event cancels
it (`clearTimeout`) and schedules its own snapshot at its own time plus the
quiet period. A pending write left at the end of the trace fires at its
deadline. -/
def runEvents {α : Type} : List (Nat × α) → Option (Nat × α) → List (Nat × α)
  | [], none => []
  | [], some ds => [ds]
  | (t, s) :: rest, none => runEvents rest (some (t + QUIET_MS, s))
  | (t, s) :: rest, some (d, s0) =>
      if d ≤ t then (d, s0) :: runEvents rest (some (t + QUIET_MS, s))
      else runEvents rest (some (t + QUIET_MS, s))

/-- The last event of a nonempty trace given as head and tail. -/
def lastEvent {α : Type} : Nat × α → List (Nat × α) → Nat × α
  | e, [] => e
  | _, e :: rest => lastEvent e rest

/-- A trace is rapid after time `tp` when its events are strictly
increasing in time and each arrives less than the quiet period after the
previous one. -/
def rapid {α : Type} : Nat → List (Nat × α) → Bool
  | _, [] => true
  | tp, (t, _) :: rest =>
      decide (tp < t) && decide (t < tp + QUIET_MS) && rapid t rest

/-- A rapid trace never reaches a pending deadline set one quiet period
after a time before its first event, so the pending slot is replaced at
every event and only the last snapshot fires, one quiet period after the
last event. -/
theorem runEvents_rapid {α : Type} (l : List (Nat × α)) (t : Nat) (s : α)
    (h : rapid t l = true) :
    runEvents l (some (t + QUIET_MS, s)) =
      [((lastEvent (t, s) l).1 + QUIET_MS, (lastEvent (t, s) l).2)] := by
  induction l generalizing t s with
  | nil => rfl
  | cons e rest ih =>
      obtain ⟨t1, s1⟩ := e
      simp only [rapid, Bool.and_eq_true, decide_eq_true_eq] at h
      obtain ⟨⟨h1, h2⟩, h3⟩ := h
      simp only [runEvents, lastEvent]
      rw [if_neg (by omega)]
      exact ih t1 s1 h3

/-! ## Awareness roster (Editor.tsx, updateUsers) -/

/-- An awareness user record: display name and display color. -/
structure AwUser where
  name : String
  color : String
deriving DecidableEq, Repr

/-- The guard `if (state.user && state.user.name)`: an awareness state is
kept only when it carries a user whose name is truthy (a nonempty
string). -/
def validUser : Option AwUser → Option AwUser
  | some u => if u.name = "" then none else some u
  | none => none

/-- JS `Map.set(u.name, u)` on a map whose keys are user names held in
insertion order: replace the entry with the same name in place, or append
a new entry. -/
def mapSet : List AwUser → AwUser → List AwUser
  | [], u => [u]
  | v :: rest, u => if v.name = u.name then u :: rest else v :: mapSet rest u

/-- The `states.forEach` loop of `updateUsers`, folding each accepted state
into the name-keyed map. -/
def updateUsersAux : List (Option AwUser) → List AwUser → List AwUser
  | [], m => m
  | st :: rest, m =>
      match validUser st with
      | some u => updateUsersAux rest (mapSet m u)
      | none => updateUsersAux rest m

/-- Embeds `updateUsers` (Editor.tsx lines 105-114): the roster computed
from the raw awareness-state table, deduplicated by display name. -/
def updateUsers (states : List (Option AwUser)) : List AwUser :=
  updateUsersAux states []

/-- The display names of the accepted awareness states, in table order. -/
def validNames (states : List (Option AwUser)) : List String :=
  states.filterMap (fun st => (validUser st).map AwUser.name)

/-- Names of the map after a `mapSet`: unchanged when the name was already
a key, appended otherwise. -/
theorem mapSet_names (m : List AwUser) (u : AwUser) :
    (mapSet m u).map AwUser.name =
      if u.name ∈ m.map AwUser.name then m.map AwUser.name
      else m.map AwUser.name ++ [u.name] := by
  induction m with
  | nil => simp [mapSet]
  | cons v rest ih =>
      by_cases hv : v.name = u.name
      · simp [mapSet, hv]
      · have hv2 : ¬u.name = v.name := fun h => hv h.symm
        simp only [mapSet, if_neg hv, List.map_cons]
        rw [ih]
        by_cases hm : u.name ∈ rest.map AwUser.name
        · rw [if_pos hm, if_pos (by simp [List.mem_cons, hm])]
        · rw [if_neg hm, if_neg (by simp [List.mem_cons, hv2, hm])]
          simp

/-- A `mapSet` preserves distinctness of the map's names. -/
theorem mapSet_nodup (m : List AwUser) (u : AwUser)
    (h : (m.map AwUser.name).Nodup) : ((mapSet m u).map AwUser.name).Nodup := by
  rw [mapSet_names]
  by_cases hm : u.name ∈ m.map AwUser.name
  · simpa [hm] using h
  · simp only [if_neg hm]
    refine List.Nodup.append h (List.nodup_singleton _) ?_
    intro x hx hx1
    rw [List.mem_singleton] at hx1
    exact hm (hx1 ▸ hx)

/-- The fold preserves distinctness of the roster's names. -/
theorem updateUsersAux_nodup (states : List (Option AwUser)) (m : List AwUser)
    (h : (m.map AwUser.name).Nodup) :
    ((updateUsersAux states m).map AwUser.name).Nodup := by
  induction states generalizing m with
  | nil => exact h
  | cons st rest ih =>
      simp only [updateUsersAux]
      cases validUser st with
      | some u => exact ih (mapSet m u) (mapSet_nodup m u h)
      | none => exact ih m h

/-- Unfolding the accepted-names projection over one state. -/
theorem validNames_cons (st : Option AwUser) (rest : List (Option AwUser)) :
    validNames (st :: rest) =
      match validUser st with
      | some u => u.name :: validNames rest
      | none => validNames rest := by
  cases hst : validUser st <;> simp [validNames, List.filterMap_cons, hst]

/-- A name is in the fold's result iff it is in the accumulator or among
the accepted states' names. -/
theorem updateUsersAux_mem (states : List (Option AwUser)) (m : List AwUser)
    (n : String) :
    n ∈ (updateUsersAux states m).map AwUser.name ↔
      n ∈ m.map AwUser.name ∨ n ∈ validNames states := by
  induction states generalizing m with
  | nil => simp [updateUsersAux, validNames]
  | cons st rest ih =>
      cases hst : validUser st with
      | some u =>
          simp only [updateUsersAux, hst, validNames_cons, List.mem_cons]
          rw [ih, mapSet_names]
          by_cases hm : u.name ∈ m.map AwUser.name
          · rw [if_pos hm]
            constructor
            · rintro (h1 | h1)
              · exact Or.inl h1
              · exact Or.inr (Or.inr h1)
            · rintro (h1 | h1 | h1)
              · exact Or.inl h1
              · exact Or.inl (by rw [h1]; exact hm)
              · exact Or.inr h1
          · rw [if_neg hm]
            simp only [List.mem_append, List.mem_singleton]
            tauto
      | none =>
          simp only [updateUsersAux, hst, validNames_cons]
          exact ih m

/-! ## Documents table rows and partial updates (database.types.ts) -/

/-- A row of the `documents` table: identity and audit fields, title,
optional content snapshot, visibility flag, and last-updated timestamp.
Content snapshots and timestamps are opaque here. -/
structure DocRow where
  id : String
  created_at : String
  owner_id : String
  title : String
  content : Option Nat
  is_public : Bool
  last_updated : String
deriving DecidableEq, Repr

/-- A partial update payload as accepted by `update(...)` on the
`documents` table: only the present fields are written. -/
structure DocUpdate where
  title : Option String := none
  content : Option (Option Nat) := none
  is_public : Option Bool := none
  last_updated : Option String := none
deriving DecidableEq, Repr

/-- Applying a partial update to a row: each present field overwrites the
row's field, each absent field leaves it unchanged. -/
def applyUpdate (row : DocRow) (u : DocUpdate) : DocRow :=
  { id := row.id
    created_at := row.created_at
    owner_id := row.owner_id
    title := u.title.getD row.title
    content := u.content.getD row.content
    is_public := u.is_public.getD row.is_public
    last_updated := u.last_updated.getD row.last_updated }

/-- The payload of the debounced content write in `saveContent`:
`{ content: jsonContent, last_updated: new Date().toISOString() }`. -/
def contentWritePayload (snap : Nat) (now : String) : DocUpdate :=
  { content := some (some snap), last_updated := some now }

/-- The payload of the immediate title write on input blur:
`{ title: docTitle }`. -/
def titleWritePayload (t : String) : DocUpdate :=
  { title := some t }

/-- The payload of the immediate visibility write in `togglePublic`:
`{ is_public: newVal }`. -/
def visibilityWritePayload (v : Bool) : DocUpdate :=
  { is_public := some v }

/-! ## Immediate metadata writes next to the debounce (Editor.tsx) -/

/-- A durable write issued by the persistence coordinator. -/
inductive DurableWrite where
  | content (snap : Nat)
  | title (t : String)
  | visibility (v : Bool)
deriving DecidableEq, Repr

/-- Coordinator state: the single-slot pending debounced write (deadline
and snapshot) and the log of issued writes with their issue times. -/
structure CoordState where
  pending : Option (Nat × Nat)
  log : List (Nat × DurableWrite)
deriving DecidableEq, Repr

/-- A content-change event at time `now`: clears any pending timeout and
schedules the new snapshot one quiet period later (`saveContent`). -/
def contentChanged (st : CoordState) (now snap : Nat) : CoordState :=
  { st with pending := some (now + QUIET_MS, snap) }

/-- An immediate metadata write at time `now` (title blur or visibility
toggle): the write is issued at `now` itself — no debounce — and the
pending slot is not touched. -/
def metadataChanged (st : CoordState) (now : Nat) (w : DurableWrite) :
    CoordState :=
  { st with log := st.log ++ [(now, w)] }

/-- The debounce timer firing at time `now`: a pending write whose
deadline has been reached is issued and the slot cleared; otherwise
nothing happens. -/
def timerFire (st : CoordState) (now : Nat) : CoordState :=
  match st.pending with
  | some (d, s) =>
      if d ≤ now then
        { pending := none, log := st.log ++ [(now, DurableWrite.content s)] }
      else st
  | none => st

/-! ## Saving indicator (Editor.tsx, saveContent and the saving flag) -/

/-- State of the saving-indicator machinery in `BaseEditor`: the pending
debounce slot (snapshot only), the number of store writes in flight, and
the `saving` flag shown by the edit surface. -/
structure SavState where
  pending : Option Nat
  inFlight : Nat
  saving : Bool
deriving DecidableEq, Repr

/-- Events of the content-save path: a content change (`saveContent` runs
`setSaving(true)` and clears and reschedules the timeout), the timeout
firing (the store write starts), and a write completing with success or
failure (`finally { setSaving(false) }` runs either way). -/
inductive SaveEvent where
  | change (snap : Nat)
  | fire
  | complete (ok : Bool)
deriving DecidableEq, Repr

/-- One step of the saving machinery. A completion with nothing in flight
is a no-op (it cannot occur in a real trace). -/
def saveStep (st : SavState) (e : SaveEvent) : SavState :=
  match e with
  | SaveEvent.change s => { st with pending := some s, saving := true }
  | SaveEvent.fire =>
      match st.pending with
      | some _ => { st with pending := none, inFlight := st.inFlight + 1 }
      | none => st
  | SaveEvent.complete _ =>
      if st.inFlight > 0 then
        { pending := st.pending, inFlight := st.inFlight - 1, saving := false }
      else st

/-- Initial state: no timer, no write in flight, `useState(false)`. -/
def saveInit : SavState := ⟨none, 0, false⟩

/-- The state after a trace of save events. -/
def saveRun (events : List SaveEvent) : SavState :=
  events.foldl saveStep saveInit

/-- A trace avoids the write/edit overlap when every content-change event
arrives with no store write in flight. -/
def noOverlap : SavState → List SaveEvent → Bool
  | _, [] => true
  | st, e :: rest =>
      (match e with
       | SaveEvent.change _ => decide (st.inFlight = 0)
       | _ => true) && noOverlap (saveStep st e) rest

/-- Strengthened invariant carried through no-overlap traces: the flag
covers the pending slot and in-flight writes, at most one write is in
flight, and a pending timer excludes an in-flight write. -/
def savInv (st : SavState) : Prop :=
  ((st.pending.isSome ∨ 0 < st.inFlight) → st.saving = true) ∧
  st.inFlight ≤ 1 ∧ (st.pending.isSome → st.inFlight = 0)

/-- The strengthened invariant is preserved along any no-overlap trace. -/
theorem savInv_preserved (events : List SaveEvent) (st : SavState)
    (hinv : savInv st) (hno : noOverlap st events = true) :
    savInv (events.foldl saveStep st) := by
  induction events generalizing st with
  | nil => exact hinv
  | cons e rest ih =>
      simp only [noOverlap, Bool.and_eq_true] at hno
      refine ih (saveStep st e) ?_ hno.2
      obtain ⟨h1, h2, h3⟩ := hinv
      cases e with
      | change s =>
          have h0 : st.inFlight = 0 := by
            have := hno.1
            simpa using this
          exact ⟨fun _ => rfl, by simp [saveStep, h0], fun _ => by simp [saveStep, h0]⟩
      | fire =>
          cases hp : st.pending with
          | none => simpa [saveStep, hp] using ⟨h1, h2, h3⟩
          | some s =>
              have h0 : st.inFlight = 0 := h3 (by simp [hp])
              have hs : st.saving = true := h1 (Or.inl (by simp [hp]))
              refine ⟨fun _ => ?_, by simp [saveStep, hp, h0], fun hc => ?_⟩
              · simpa [saveStep, hp] using hs
              · simp [saveStep, hp] at hc
      | complete ok =>
          by_cases hf : st.inFlight > 0
          · have hpn : st.pending = none := by
              cases hp : st.pending with
              | none => rfl
              | some s => exact absurd (h3 (by simp [hp])) (by omega)
            refine ⟨fun hc => ?_, by simp [saveStep, hf]; omega, fun hc => ?_⟩
            · exfalso
              rcases hc with hc | hc
              · simp [saveStep, hf, hpn] at hc
              · simp [saveStep, hf] at hc
                omega
            · simp [saveStep, hf, hpn] at hc
          · simpa [saveStep, hf] using ⟨h1, h2, h3⟩

/-! ## Visibility toggle (Editor.tsx, togglePublic) -/

/-- State of the visibility toggle: the committed `isPublic` React state
read by click handlers, the writes issued so far (in issue order), and
the queue of deferred state updates (`setIsPublic(newVal)` runs only
after the write's `await` resolves). -/
structure ToggleState where
  isPublic : Bool
  writes : List Bool
  resolveQueue : List Bool
deriving DecidableEq, Repr

/-- A click on the visibility toggle (`togglePublic`): reads the
committed state, immediately issues the write of its negation, and queues
the state update for when that write resolves. -/
def toggleClick (st : ToggleState) : ToggleState :=
  { st with writes := st.writes ++ [!st.isPublic],
            resolveQueue := st.resolveQueue ++ [!st.isPublic] }

/-- A write resolving: the oldest queued `setIsPublic(newVal)` commits. -/
def toggleResolve (st : ToggleState) : ToggleState :=
  match st.resolveQueue with
  | [] => st
  | v :: rest => { st with isPublic := v, resolveQueue := rest }

/-! ## Presence tracking (useDocumentPresence.ts) -/

/-- The state exposed by `useDocumentPresence` to the edit surface: the
online-user count (self-only default 1) and the collaboration flag. The
hook's interface exposes no error field. -/
structure PresenceState where
  onlineUsers : Nat
  isCollaborating : Bool
deriving DecidableEq, Repr

/-- Initial hook state: `useState(1)` and `useState(false)`. -/
def presenceInit : PresenceState := ⟨1, false⟩

/-- Events delivered to the hook: the subscribe callback with its status
(a successful status tracks onto the channel, changing no local state),
and a presence sync event carrying the channel's presence table
(key to list of presence records). A channel that cannot be subscribed
never delivers a sync event. -/
inductive PresenceEvent where
  | subscribeStatus (subscribed : Bool)
  | presenceSync (table : List (List String))
deriving DecidableEq, Repr

/-- One hook step: a sync event recomputes
`Object.values(state).flat().length` and sets the collaboration flag to
whether more than one user is present; the subscribe callback leaves the
exposed state unchanged. -/
def presenceStep (st : PresenceState) (e : PresenceEvent) : PresenceState :=
  match e with
  | PresenceEvent.subscribeStatus _ => st
  | PresenceEvent.presenceSync table =>
      ⟨table.flatten.length, decide (table.flatten.length > 1)⟩

/-- The exposed state after a trace of channel events. -/
def presenceRun (events : List PresenceEvent) : PresenceState :=
  events.foldl presenceStep presenceInit

/-- Whether an event is a presence sync. -/
def isSync : PresenceEvent → Bool
  | PresenceEvent.presenceSync _ => true
  | PresenceEvent.subscribeStatus _ => false

/-- Non-sync events never change the exposed presence state. -/
theorem presence_steps_no_sync (events : List PresenceEvent)
    (st : PresenceState) (h : events.all (fun e => !(isSync e)) = true) :
    events.foldl presenceStep st = st := by
  induction events generalizing st with
  | nil => rfl
  | cons e rest ih =>
      simp only [List.all_cons, Bool.and_eq_true] at h
      cases e with
      | subscribeStatus b => exact ih st h.2
      | presenceSync table => simp [isSync] at h

/-! ## Collaborative session lifecycle (Editor.tsx, CollabEditor) -/

/-- The two handles held in `CollabEditor` state: the shared document
(`ydoc`) and the transport (`provider`). -/
structure CollabSession where
  ydoc : Option Nat
  provider : Option Nat
deriving DecidableEq, Repr

/-- Initial state: both `useState(null)`. -/
def sessionInit : CollabSession := ⟨none, none⟩

/-- Session lifecycle events: the mount effect runs, constructing the
shared document and the transport and committing both state updates in
one batch, and the cleanup (unmount or room change) destroys both. -/
inductive SessionEvent where
  | effectRun (y p : Nat)
  | cleanup
deriving DecidableEq, Repr

/-- One lifecycle step. -/
def sessionStep (_st : CollabSession) (e : SessionEvent) : CollabSession :=
  match e with
  | SessionEvent.effectRun y p => ⟨some y, some p⟩
  | SessionEvent.cleanup => ⟨none, none⟩

/-- What `CollabEditor` renders for a session state. -/
inductive SessionView where
  | connecting
  | editSurface
deriving DecidableEq, Repr

/-- Embeds `if (!ydoc || !provider) return <Connecting/>` followed by the
construction of `BaseEditor`: the edit surface exists only when both
handles do. -/
def renderSession (st : CollabSession) : SessionView :=
  match st.ydoc, st.provider with
  | some _, some _ => SessionView.editSurface
  | _, _ => SessionView.connecting

/-- The session state after a trace of lifecycle events. -/
def sessionRun (events : List SessionEvent) : CollabSession :=
  events.foldl sessionStep sessionInit

/-! ## Theorems -/

/-- C1: For every visibility value, the mode decision of `DocumentRoom` is a
pure, deterministic, total function of visibility alone: a Public document
opens in Collaborative mode and a Private document opens in Local mode, and
for every presence count (and collaboration flag) the same visibility yields
the same mode. -/
theorem decide_pure_of_visibility :
    (∀ inp : RoomInputs, inp.docPublic = true →
      ModeArbiter.decide inp = Mode.Collaborative) ∧
    (∀ inp : RoomInputs, inp.docPublic = false →
      ModeArbiter.decide inp = Mode.Local) ∧
    (∀ inp inp' : RoomInputs, inp.docPublic = inp'.docPublic →
      ModeArbiter.decide inp = ModeArbiter.decide inp') := by
  refine ⟨fun inp h => ?_, fun inp h => ?_, fun inp inp' h => ?_⟩
  · simp [ModeArbiter.decide, shouldEnterRoom, h]
  · simp [ModeArbiter.decide, shouldEnterRoom, h]
  · simp [ModeArbiter.decide, shouldEnterRoom, h]

/-- Witness for C1: evaluated at concrete inputs, a public document with
presence count 0 opens collaboratively and a private one with presence
count 5 opens locally. -/
theorem decide_pure_of_visibility_witness :
    ModeArbiter.decide ⟨true, 0, false⟩ = Mode.Collaborative ∧
    ModeArbiter.decide ⟨false, 5, true⟩ = Mode.Local :=
  ⟨decide_pure_of_visibility.1 ⟨true, 0, false⟩ rfl,
   decide_pure_of_visibility.2.1 ⟨false, 5, true⟩ rfl⟩

/-- C6: For every display name (given by its char codes), `stringToColor` is
deterministic — applying it twice yields the identical triple — and each of
the three channels of the resulting 24-bit RGB triple is at least 50 (and at
most 255). -/
theorem stringToColor_deterministic_and_bright (codes : List Nat) :
    stringToColor codes = stringToColor codes ∧
    (50 ≤ (stringToColor codes).1 ∧ (stringToColor codes).1 ≤ 255) ∧
    (50 ≤ (stringToColor codes).2.1 ∧ (stringToColor codes).2.1 ≤ 255) ∧
    (50 ≤ (stringToColor codes).2.2 ∧ (stringToColor codes).2.2 ≤ 255) := by
  have hch : ∀ (h : Int) (i : Nat), 50 ≤ channel h i ∧ channel h i ≤ 255 := by
    intro h i
    constructor
    · exact le_max_right _ _
    · have hlt : ((toInt32 h).fdiv (2 ^ (i * 8))).emod 256 < 256 :=
        Int.emod_lt_of_pos _ (by norm_num)
      have : ((toInt32 h).fdiv (2 ^ (i * 8))).emod 256 ≤ 255 := by omega
      exact max_le this (by norm_num)
  exact ⟨rfl, hch _ 0, hch _ 1, hch _ 2⟩

/-- C2: For every sequence of one or more content-change events in which
each event arrives less than the quiet period (2000 ms) after the previous
one, the coordinator issues exactly one durable write; it contains the
snapshot of the last event, fires one full quiet period after the final
event, and all intermediate snapshots are discarded. -/
theorem debounce_coalesces {α : Type} (t : Nat) (s : α)
    (rest : List (Nat × α)) (h : rapid t rest = true) :
    runEvents ((t, s) :: rest) none =
      [((lastEvent (t, s) rest).1 + QUIET_MS, (lastEvent (t, s) rest).2)] := by
  simp only [runEvents]
  exact runEvents_rapid rest t s h

/-- Witness for C2: three events at times 0, 1000 and 2500 (gaps 1000 and
1500, both under the quiet period) coalesce into the single write of the
last snapshot at time 4500. -/
theorem debounce_coalesces_witness :
    rapid 0 [((1000 : Nat), (20 : Nat)), (2500, 30)] = true ∧
    runEvents [((0 : Nat), (10 : Nat)), (1000, 20), (2500, 30)] none =
      [(4500, 30)] :=
  ⟨by decide, debounce_coalesces 0 10 [(1000, 20), (2500, 30)] (by decide)⟩

/-- C3: An immediate metadata change at time `now` issues its durable
write at `now` itself, with no debounce delay; it does not cancel a
pending content timer, and a pending content write still fires unchanged
(same snapshot, same deadline) after it. -/
theorem metadata_write_immediate (st : CoordState) (now : Nat)
    (w : DurableWrite) :
    (metadataChanged st now w).log = st.log ++ [(now, w)] ∧
    (metadataChanged st now w).pending = st.pending ∧
    (∀ d s tf, st.pending = some (d, s) → d ≤ tf →
      (timerFire (metadataChanged st now w) tf).log =
        st.log ++ [(now, w), (tf, DurableWrite.content s)] ∧
      (timerFire (metadataChanged st now w) tf).pending = none) := by
  refine ⟨rfl, rfl, fun d s tf hp hd => ⟨?_, ?_⟩⟩
  · simp [metadataChanged, timerFire, hp, hd]
  · simp [metadataChanged, timerFire, hp, hd]

/-- Witness for C3: with a content write of snapshot 7 pending at deadline
2000, a visibility toggle at time 500 is logged at 500 and the content
write still fires at 2000. -/
theorem metadata_write_immediate_witness :
    (timerFire (metadataChanged ⟨some (2000, 7), []⟩ 500
        (DurableWrite.visibility true)) 2000).log =
      [(500, DurableWrite.visibility true), (2000, DurableWrite.content 7)] :=
  ((metadata_write_immediate ⟨some (2000, 7), []⟩ 500
      (DurableWrite.visibility true)).2.2 2000 7 2000 rfl (by decide)).1

/-- Counterexample to C4 as stated: in the trace where a content change is
followed by the timer firing, a second content change arrives while that
write is in flight, and then the write completes, the final state has a
debounce timer pending yet the saving indicator is false — the `finally`
of the completed write turned it off under the newly scheduled timer. -/
theorem saving_invariant_counterexample :
    (saveRun [SaveEvent.change 1, SaveEvent.fire, SaveEvent.change 2,
        SaveEvent.complete true]).pending = some 2 ∧
    (saveRun [SaveEvent.change 1, SaveEvent.fire, SaveEvent.change 2,
        SaveEvent.complete true]).saving = false := by
  constructor
  · rfl
  · rfl

/-- C4 amended: the saving indicator becomes false only at a write
completion (success or failure alike), and, provided no content-change
event arrives while a write is in flight, in every reachable state the
indicator is true whenever a debounce timer is scheduled or a write is in
flight. -/
theorem saving_invariant_amended :
    (∀ (st : SavState) (e : SaveEvent), st.saving = true →
      (saveStep st e).saving = false → ∃ ok, e = SaveEvent.complete ok) ∧
    (∀ events : List SaveEvent, noOverlap saveInit events = true →
      ((saveRun events).pending.isSome ∨ 0 < (saveRun events).inFlight) →
      (saveRun events).saving = true) := by
  constructor
  · intro st e hs hs2
    cases e with
    | change s => simp [saveStep] at hs2
    | fire =>
        exfalso
        cases hp : st.pending with
        | none => rw [saveStep, hp] at hs2; rw [hs] at hs2; exact Bool.noConfusion hs2
        | some s => rw [saveStep, hp] at hs2; rw [hs] at hs2; exact Bool.noConfusion hs2
    | complete ok => exact ⟨ok, rfl⟩
  · intro events hno hbusy
    have hinv : savInv (saveRun events) :=
      savInv_preserved events saveInit ⟨by simp [saveInit], by simp [saveInit],
        by simp [saveInit]⟩ hno
    exact hinv.1 hbusy

/-- Witness for C4 amended: in the overlap-free trace change, fire,
complete, change the final state has a pending timer and the indicator is
true; and from a saving state a successful completion may turn the flag
off, instantiating the only-at-completion clause. -/
theorem saving_invariant_amended_witness :
    noOverlap saveInit [SaveEvent.change 1, SaveEvent.fire,
      SaveEvent.complete true, SaveEvent.change 2] = true ∧
    (saveRun [SaveEvent.change 1, SaveEvent.fire, SaveEvent.complete true,
      SaveEvent.change 2]).saving = true ∧
    (∃ ok, SaveEvent.complete true = SaveEvent.complete ok) :=
  ⟨by decide,
   saving_invariant_amended.2 [SaveEvent.change 1, SaveEvent.fire,
     SaveEvent.complete true, SaveEvent.change 2] (by decide) (by decide),
   saving_invariant_amended.1 ⟨none, 1, true⟩ (SaveEvent.complete true) rfl rfl⟩

/-- Counterexample to C5 as stated: starting from a private document with
no write pending, two quick clicks (no resolution in between) issue the
writes `[true, true]` — the second write repeats the first value instead
of flipping it back to `false` as the claim requires. -/
theorem toggle_double_click_counterexample :
    (toggleClick (toggleClick ⟨false, [], []⟩)).writes = [true, true] ∧
    (toggleClick (toggleClick ⟨false, [], []⟩)).writes ≠ [true, false] := by
  constructor
  · rfl
  · intro h
    exact List.noConfusion (List.noConfusion h fun _ h2 => h2)
      (fun h3 _ => Bool.noConfusion h3)

/-- C5 amended: two visibility-toggle clicks in quick succession (the
second before any state round-trip from the first) issue exactly two
separate immediate writes, in the order clicked, but both carry the
negation of the committed state at the first click — the second write
repeats the first value rather than flipping it back, because
`setIsPublic` only runs after the write's await resolves. -/
theorem toggle_double_click (st : ToggleState) :
    (toggleClick (toggleClick st)).writes =
      st.writes ++ [!st.isPublic, !st.isPublic] := by
  simp [toggleClick]

/-- C7: For every raw awareness-state table the computed roster is the
distinct-by-display-name projection: the roster's names are distinct, a
name appears in the roster iff some accepted state carries it, and in
particular two publishes under the identical (nonempty) display name
collapse to a single roster entry while two publishes under different
names yield two entries. -/
theorem updateUsers_dedup_by_name (states : List (Option AwUser)) :
    ((updateUsers states).map AwUser.name).Nodup ∧
    (∀ n, n ∈ (updateUsers states).map AwUser.name ↔ n ∈ validNames states) ∧
    (∀ u v : AwUser, u.name ≠ "" → v.name ≠ "" →
      ((u.name = v.name → (updateUsers [some u, some v]).length = 1) ∧
       (u.name ≠ v.name → (updateUsers [some u, some v]).length = 2))) := by
  refine ⟨updateUsersAux_nodup states [] (by simp), fun n => ?_,
    fun u v hu hv => ⟨fun huv => ?_, fun huv => ?_⟩⟩
  · simpa using updateUsersAux_mem states [] n
  · simp [updateUsers, updateUsersAux, validUser, hu, hv, mapSet, huv]
  · simp [updateUsers, updateUsersAux, validUser, hu, hv, mapSet, if_neg huv]

/-- Witness for C7: two publishes under the name alice collapse to one
roster entry; publishes under alice and bob yield two entries. -/
theorem updateUsers_dedup_by_name_witness :
    (updateUsers [some ⟨"alice", "red"⟩, some ⟨"alice", "blue"⟩]).length = 1 ∧
    (updateUsers [some ⟨"alice", "red"⟩, some ⟨"bob", "blue"⟩]).length = 2 :=
  ⟨((updateUsers_dedup_by_name []).2.2 ⟨"alice", "red"⟩ ⟨"alice", "blue"⟩
      (by decide) (by decide)).1 rfl,
   ((updateUsers_dedup_by_name []).2.2 ⟨"alice", "red"⟩ ⟨"bob", "blue"⟩
      (by decide) (by decide)).2 (by decide)⟩

/-- C8: If the presence channel cannot be subscribed no sync event is
ever delivered, and then the state exposed to the edit surface stays
exactly at the self-only default for the whole session: the count remains
1, the collaboration flag stays false, and nothing else — in particular
no error — is surfaced (the exposed state record has no error field). -/
theorem presence_subscribe_failure (events : List PresenceEvent)
    (h : events.all (fun e => !(isSync e)) = true) :
    presenceRun events = presenceInit ∧
    (presenceRun events).onlineUsers = 1 ∧
    (presenceRun events).isCollaborating = false := by
  have key : presenceRun events = presenceInit :=
    presence_steps_no_sync events presenceInit h
  refine ⟨key, ?_, ?_⟩
  · rw [key]
    rfl
  · rw [key]
    rfl

/-- Witness for C8: a session whose only event is a failed subscribe
callback keeps the default state. -/
theorem presence_subscribe_failure_witness :
    ([PresenceEvent.subscribeStatus false].all (fun e => !(isSync e)) = true) ∧
    (presenceRun [PresenceEvent.subscribeStatus false]).onlineUsers = 1 :=
  ⟨by decide,
   (presence_subscribe_failure [PresenceEvent.subscribeStatus false]
     (by decide)).2.1⟩

/-- C9: In every reachable state of a collaborative session the two
handles are held both-or-neither — never exactly one — and while neither
is held the session renders as connecting, so the edit surface is not
constructed. -/
theorem session_both_or_neither (events : List SessionEvent) :
    ((sessionRun events).ydoc.isSome ↔ (sessionRun events).provider.isSome) ∧
    ((sessionRun events).ydoc = none →
      renderSession (sessionRun events) = SessionView.connecting) := by
  have key : ∀ (l : List SessionEvent) (st : CollabSession),
      (st.ydoc.isSome ↔ st.provider.isSome) →
      ((l.foldl sessionStep st).ydoc.isSome ↔
        (l.foldl sessionStep st).provider.isSome) := by
    intro l
    induction l with
    | nil => intro st h; exact h
    | cons e rest ih =>
        intro st h
        cases e with
        | effectRun y p => exact ih _ (by simp [sessionStep])
        | cleanup => exact ih _ (by simp [sessionStep])
  have hiff : ((sessionRun events).ydoc.isSome ↔
      (sessionRun events).provider.isSome) :=
    key events sessionInit (by simp [sessionInit])
  refine ⟨hiff, fun h => ?_⟩
  have h2 : (sessionRun events).provider = none := by
    cases hp : (sessionRun events).provider with
    | none => rfl
    | some v =>
        have hy := hiff.mpr (by rw [hp]; rfl)
        rw [h] at hy
        exact Bool.noConfusion hy
  simp [renderSession, h, h2]

/-- Witness for C9: after a mount effect and a cleanup the session holds
neither handle and renders as connecting. -/
theorem session_both_or_neither_witness :
    renderSession (sessionRun [SessionEvent.effectRun 1 2,
      SessionEvent.cleanup]) = SessionView.connecting :=
  (session_both_or_neither [SessionEvent.effectRun 1 2,
    SessionEvent.cleanup]).2 rfl

/-- C10: Every durable write touches its fixed field set and leaves all
other document fields unchanged: the debounced content write updates
exactly the content and last-updated fields, the immediate title write
updates exactly the title, and the immediate visibility write updates
exactly the visibility flag — in particular neither metadata write
touches the content or the last-updated timestamp. -/
theorem writes_frame_effects (row : DocRow) (snap : Nat) (now : String)
    (t : String) (v : Bool) :
    applyUpdate row (contentWritePayload snap now) =
      { row with content := some snap, last_updated := now } ∧
    applyUpdate row (titleWritePayload t) = { row with title := t } ∧
    applyUpdate row (visibilityWritePayload v) =
      { row with is_public := v } :=
  ⟨rfl, rfl, rfl⟩
